import Mathlib

/-!
Verification of the PDF partner-branding pipeline (`src/lib/pdf-processor.ts`
and the related revisions of the same module).

The TypeScript code is shallowly embedded: page coordinates and image
dimensions become exact rationals (`ℚ`), drawing calls on a page become
constructors of a `DrawOp` trace, thrown exceptions become `Except` errors,
and JavaScript try/catch blocks become explicit `match`es on those errors.
External library behaviour (pdf-lib image decoding, pdf.js page rendering,
font metrics, the system clock) is passed in as explicit parameters so the
control flow of the repository code itself is what the definitions capture.
-/

/-- A rectangle in page space, origin bottom-left, units = PDF points.
Mirrors the `{x, y, width, height}` literals used throughout the source. -/
structure Region where
  x : ℚ
  y : ℚ
  width : ℚ
  height : ℚ
deriving DecidableEq, Repr

/-- An RGB colour, mirroring pdf-lib `rgb(r, g, b)` with components in [0,1]. -/
structure Color where
  r : ℚ
  g : ℚ
  b : ℚ
deriving DecidableEq, Repr

/-- `rgb(1, 1, 1)` from the source. -/
def whiteColor : Color := ⟨1, 1, 1⟩

/-- The two standard fonts embedded by `processPDF`
(`StandardFonts.HelveticaBold` and `StandardFonts.Helvetica`). -/
inductive Font where
  | helveticaBold
  | helvetica
deriving DecidableEq, Repr

/-- Images embedded into the document: the three white cover PNGs created by
`createWhiteImage`, the uploaded partner logo, and rasters produced by
`renderRegionToImage` during flattening (identified by an abstract handle). -/
inductive ImageRef where
  | whiteBanner
  | whiteHeader
  | whiteFooter
  | partnerLogo
  | raster (id : Nat)
deriving DecidableEq, Repr

/-- One drawing call on a page.  `rect` is `page.drawRectangle` (a native
vector content-stream fill), `image` is `page.drawImage`, `text` is
`page.drawText` (arguments in source order: string, x, y, size, font).
`annot` models adding a PDF annotation object; the repository never emits
one, and the constructor exists so that "drawn as content, not as an
annotation" is a statable property. -/
inductive DrawOp where
  | rect (r : Region) (color : Color) (opacity : ℚ)
  | image (img : ImageRef) (r : Region)
  | text (s : String) (x y size : ℚ) (font : Font)
  | annot (r : Region)
deriving DecidableEq, Repr

/-- Does this drawing call render text? -/
def DrawOp.isText : DrawOp → Bool
  | .text _ _ _ _ _ => true
  | _ => false

/-- Is this drawing call a vector rectangle fill? -/
def DrawOp.isRect : DrawOp → Bool
  | .rect _ _ _ => true
  | _ => false

/-- Is this drawing call an annotation object? -/
def DrawOp.isAnnot : DrawOp → Bool
  | .annot _ => true
  | _ => false

/-- Is this drawing call a fully opaque white vector rectangle fill? -/
def DrawOp.isOpaqueWhiteRect : DrawOp → Bool
  | .rect _ c o => c == whiteColor && o == 1
  | _ => false

/-! ## `scaleToFit` (src/lib/pdf-processor.ts, lines 91-105)

The source computes `widthRatio = maxWidth / originalWidth`,
`heightRatio = maxHeight / originalHeight`, `scale = min(widthRatio,
heightRatio)` and returns `(originalWidth * scale, originalHeight * scale)`.
JavaScript numbers are modelled as exact rationals. -/

def scaleToFit (originalWidth originalHeight maxWidth maxHeight : ℚ) : ℚ × ℚ :=
  let widthRatio := maxWidth / originalWidth
  let heightRatio := maxHeight / originalHeight
  let scale := min widthRatio heightRatio
  (originalWidth * scale, originalHeight * scale)

/-! ## Date extraction (src/lib/pdf-processor.ts, lines 27-63)

`extractDateFromPdf` loads the document with pdf.js, requires at least 2
pages, reads the text items of page 2, and returns the first
`\d{2}\.\d{2}\.\d{4}` match found while iterating the items in order; every
failure path (load error, fewer than 2 pages, no match) returns `''`.
The pdf.js view of a document is modelled as its list of pages, each a list
of text-item strings; a load/decode error is modelled as `none`. -/

structure TextDoc where
  pages : List (List String)
deriving DecidableEq, Repr

/-- Position `i` of `l` holds a decimal digit (out-of-range reads a blank). -/
def digitAtPos (l : List Char) (i : Nat) : Bool := (l.getD i ' ').isDigit

/-- Position `i` of `l` holds a literal dot. -/
def dotAtPos (l : List Char) (i : Nat) : Bool := l.getD i ' ' == '.'

/-- The regex `\d{2}\.\d{2}\.\d{4}` matches at the head of `l`.  The
quantifiers are fixed-width, so the JavaScript match at a position is
exactly this positional check. -/
def dateAt (l : List Char) : Bool :=
  decide (10 ≤ l.length) &&
  digitAtPos l 0 && digitAtPos l 1 && dotAtPos l 2 &&
  digitAtPos l 3 && digitAtPos l 4 && dotAtPos l 5 &&
  digitAtPos l 6 && digitAtPos l 7 && digitAtPos l 8 && digitAtPos l 9

/-- `text.match(/(\d{2}\.\d{2}\.\d{4})/)`: the leftmost match of the date
pattern, as the 10-character window at the first matching position. -/
def findDate : List Char → Option (List Char)
  | [] => none
  | c :: rest => if dateAt (c :: rest) then some ((c :: rest).take 10) else findDate rest

/-- The `for (const item of textContent.items)` loop: return the match from
the first item that contains one, `''` when none does. -/
def findDateInItems : List String → String
  | [] => ""
  | item :: rest =>
    match findDate item.data with
    | some m => String.mk m
    | none => findDateInItems rest

/-- `extractDateFromPdf`: `none` models a pdf.js load/decode error (the
surrounding try/catch turns it into `''`); otherwise the page count is
checked and page 2 (index 1) is scanned. -/
def extractDateFromPdf (doc : Option TextDoc) : String :=
  match doc with
  | none => ""
  | some d =>
    if d.pages.length < 2 then ""
    else findDateInItems (d.pages.getD 1 [])

/-- A string is a complete `DD.MM.YYYY`-shaped match: exactly 10 characters
in digit/dot positions. -/
def isDateString (s : String) : Bool :=
  dateAt s.data && s.data.length == 10

/-! ## Filename generation (src/lib/pdf-processor.ts, lines 256-261)

`processPDF` builds the filename as
`Beweissicherungsbericht_<sanitized>_<timestamp>.pdf` where the sanitized
name is `partnerName.replace(/[^a-zA-Z0-9äöüÄÖÜß\s-]/g, '').replace(/\s+/g, '_')`
and the timestamp is `new Date().toISOString().split('T')[0]`. -/

/-- The JavaScript `\s` character class (ECMAScript WhiteSpace and
LineTerminator code points). -/
def isJsWhitespace (c : Char) : Bool :=
  c.toNat == 32 || c.toNat == 9 || c.toNat == 10 || c.toNat == 11 ||
  c.toNat == 12 || c.toNat == 13 || c.toNat == 0xa0 || c.toNat == 0x1680 ||
  (decide (0x2000 ≤ c.toNat) && decide (c.toNat ≤ 0x200a)) ||
  c.toNat == 0x2028 || c.toNat == 0x2029 || c.toNat == 0x202f ||
  c.toNat == 0x205f || c.toNat == 0x3000 || c.toNat == 0xfeff

/-- Membership in the character class `[a-zA-Z0-9äöüÄÖÜß\s-]` of the first
`replace` call: anything outside it is deleted. -/
def isAllowedChar (c : Char) : Bool :=
  (decide (97 ≤ c.toNat) && decide (c.toNat ≤ 122)) ||
  (decide (65 ≤ c.toNat) && decide (c.toNat ≤ 90)) ||
  (decide (48 ≤ c.toNat) && decide (c.toNat ≤ 57)) ||
  c == 'ä' || c == 'ö' || c == 'ü' || c == 'Ä' || c == 'Ö' || c == 'Ü' ||
  c == 'ß' || isJsWhitespace c || c == '-'

/-- `replace(/\s+/g, '_')`: each maximal whitespace run becomes one
underscore.  The boolean tracks whether the previous character was part of
a whitespace run already replaced. -/
def collapseWsAux : List Char → Bool → List Char
  | [], _ => []
  | c :: rest, prevWs =>
    if isJsWhitespace c then
      (if prevWs then [] else ['_']) ++ collapseWsAux rest true
    else
      c :: collapseWsAux rest false

/-- The two chained `replace` calls of the source. -/
def sanitizeName (s : String) : String :=
  String.mk (collapseWsAux (s.data.filter isAllowedChar) false)

/-- The wall-clock date, an input of the pipeline (`new Date()`). -/
structure Date where
  year : Nat
  month : Nat
  day : Nat
deriving DecidableEq, Repr

/-- Two-digit zero-padded decimal field of `toISOString`. -/
def twoDigits (n : Nat) : List Char :=
  [Nat.digitChar (n / 10 % 10), Nat.digitChar (n % 10)]

/-- Four-digit zero-padded decimal field of `toISOString`. -/
def fourDigits (n : Nat) : List Char :=
  [Nat.digitChar (n / 1000 % 10), Nat.digitChar (n / 100 % 10),
   Nat.digitChar (n / 10 % 10), Nat.digitChar (n % 10)]

/-- `new Date().toISOString().split('T')[0]`: the `YYYY-MM-DD` date part of
the ISO timestamp (fixed-width fields; faithful for the years 0-9999 that
use the unexpanded ISO form). -/
def isoDate (d : Date) : String :=
  String.mk (fourDigits d.year ++ '-' :: (twoDigits d.month ++ '-' :: twoDigits d.day))

/-- The filename built at the end of `processPDF`. -/
def mkFilename (partnerName : String) (today : Date) : String :=
  "Beweissicherungsbericht_" ++ sanitizeName partnerName ++ "_" ++ isoDate today ++ ".pdf"

/-- `YYYY-MM-DD` shape: 10 characters, digits in the date positions and
dashes at positions 4 and 7. -/
def isoDateShape (s : String) : Bool :=
  s.data.length == 10 &&
  (s.data.getD 0 ' ').isDigit && (s.data.getD 1 ' ').isDigit &&
  (s.data.getD 2 ' ').isDigit && (s.data.getD 3 ' ').isDigit &&
  (s.data.getD 4 ' ' == '-') &&
  (s.data.getD 5 ' ').isDigit && (s.data.getD 6 ' ').isDigit &&
  (s.data.getD 7 ' ' == '-') &&
  (s.data.getD 8 ' ').isDigit && (s.data.getD 9 ' ').isDigit

/-! ## `processPDF` (src/lib/pdf-processor.ts, lines 116-267)

Inputs: the loaded document (only its page count is inspected), the partner
name, the optional logo, and the already-extracted date string (`''` or the
missing field both make `if (extractedDate)` false).  The pdf-lib services
the code calls are modelled as inputs: `asPng`/`asJpg` are the outcomes of
`pdfDoc.embedPng`/`embedJpg` on the logo bytes (`none` = the library threw),
and `widthOf` is `font.widthOfTextAtSize`.

The function returns the trace of drawing calls performed before returning
or throwing, together with either the thrown error or the
`ProcessingResult`. -/

structure LogoInput where
  mime : String
  asPng : Option (ℚ × ℚ)
  asJpg : Option (ℚ × ℚ)
deriving DecidableEq, Repr

structure ProcessingOptions where
  numPages : Nat
  partnerName : String
  logo : Option LogoInput
  extractedDate : String
deriving DecidableEq, Repr

inductive ProcError where
  | noPages
  | unsupportedFormat (mime : String)
  | embedFailure
  | logoProcessing
deriving DecidableEq, Repr

/-- The user-visible message of each thrown error (`embedFailure` stands for
whatever pdf-lib throws internally; its text is library-defined). -/
def ProcError.message : ProcError → String
  | .noPages => "Das PDF enthält keine Seiten."
  | .unsupportedFormat mime => "Nicht unterstütztes Bildformat: " ++ mime
  | .embedFailure => "pdf-lib embed error"
  | .logoProcessing =>
      "Das Logo konnte nicht verarbeitet werden. Bitte verwenden Sie ein gültiges PNG- oder JPG-Bild."

/-- The saved document: page count, the drawing calls appended to the pages,
and the metadata set by `setTitle`/`setProducer`/`setCreator`. -/
structure OutputDoc where
  numPages : Nat
  ops : List (Nat × DrawOp)
  title : String
  producer : String
  creator : String
deriving DecidableEq, Repr

structure ProcessingResult where
  output : OutputDoc
  filename : String
deriving DecidableEq, Repr

/-- Banner area hardcoded on lines 140: `{x: 496, y: 0, width: 99, height: 842}`. -/
def bannerArea : Region := ⟨496, 0, 99, 842⟩

/-- Header logo area hardcoded on line 145: `{x: 527, y: 782, width: 68, height: 60}`. -/
def headerLogoArea : Region := ⟨527, 782, 68, 60⟩

/-- Footer area hardcoded on line 150: `{x: 41, y: 45.25, width: 132, height: 12}`. -/
def footerArea : Region := ⟨41, 45.25, 132, 12⟩

/-- `PDF_POSITIONS.partnerLogo` from src/config/pdf-positions.ts. -/
def partnerLogoPos : ℚ × ℚ := (57, 750)

/-- `PDF_POSITIONS.partnerLogo.maxWidth/maxHeight`. -/
def partnerLogoMax : ℚ × ℚ := (150, 60)

/-- The page-1 banner cover: `page1.drawImage(bannerImage, bannerArea)`. -/
def bannerOp : Nat × DrawOp := (0, DrawOp.image ImageRef.whiteBanner bannerArea)

/-- The body of the `try` around logo embedding: dispatch on the declared
mime type, throw `Nicht unterstütztes Bildformat` on anything that is not
png/jpeg/jpg, and propagate the pdf-lib error when the bytes cannot be
embedded. -/
def embedLogoInner (lg : LogoInput) : Except ProcError (ℚ × ℚ) :=
  if lg.mime = "image/png" then
    match lg.asPng with
    | some d => Except.ok d
    | none => Except.error ProcError.embedFailure
  else if lg.mime = "image/jpeg" ∨ lg.mime = "image/jpg" then
    match lg.asJpg with
    | some d => Except.ok d
    | none => Except.error ProcError.embedFailure
  else
    Except.error (ProcError.unsupportedFormat lg.mime)

/-- The whole `if (logoBuffer && logoMimeType) { try ... catch ... }` block:
absent logo (or a falsy mime string) draws nothing; any error inside the
`try` — including the unsupported-format throw — is caught and replaced by
the user-facing `logoProcessing` error; success scales the image with
`scaleToFit` and draws it at the configured position. -/
def logoStep : Option LogoInput → Except ProcError (List (Nat × DrawOp))
  | none => Except.ok []
  | some lg =>
    if lg.mime = "" then Except.ok []
    else
      match embedLogoInner lg with
      | Except.ok wh =>
        let dims := scaleToFit wh.1 wh.2 partnerLogoMax.1 partnerLogoMax.2
        Except.ok [(0, DrawOp.image ImageRef.partnerLogo
          ⟨partnerLogoPos.1, partnerLogoPos.2, dims.1, dims.2⟩)]
      | Except.error _ => Except.error ProcError.logoProcessing

/-- The body of the `for (let i = 1; i < pages.length; i++)` loop for page
index `i`: cover the header logo and the footer area with the white images,
draw the partner name in bold at `(42, 46.25)` size 8, and, when a date was
extracted, draw `", " + extractedDate` in regular weight at the same
baseline shifted by `helveticaBold.widthOfTextAtSize(partnerName, 8)`. -/
def footerPageOps (widthOf : Font → String → ℚ → ℚ)
    (partnerName extractedDate : String) (i : Nat) : List (Nat × DrawOp) :=
  [(i, DrawOp.image ImageRef.whiteHeader headerLogoArea),
   (i, DrawOp.image ImageRef.whiteFooter footerArea),
   (i, DrawOp.text partnerName 42 46.25 8 Font.helveticaBold)] ++
  (if extractedDate ≠ "" then
    [(i, DrawOp.text (", " ++ extractedDate)
        (42 + widthOf Font.helveticaBold partnerName 8) 46.25 8 Font.helvetica)]
   else [])

/-- The page loop unrolled: ops for `k` consecutive pages starting at index `s`. -/
def pagesFrom (widthOf : Font → String → ℚ → ℚ)
    (partnerName extractedDate : String) : Nat → Nat → List (Nat × DrawOp)
  | _, 0 => []
  | s, k + 1 =>
    footerPageOps widthOf partnerName extractedDate s ++
    pagesFrom widthOf partnerName extractedDate (s + 1) k

/-- `processPDF` (pdf.js-free part): load, reject zero-page documents, cover
the page-1 banner, optionally embed and draw the logo, run the page-2+ loop,
set the metadata, save, and build the filename.  The first component is the
trace of drawing calls performed up to the point of return or throw. -/
def processPDF (opts : ProcessingOptions) (widthOf : Font → String → ℚ → ℚ)
    (today : Date) :
    List (Nat × DrawOp) × Except ProcError ProcessingResult :=
  if opts.numPages = 0 then
    ([], Except.error ProcError.noPages)
  else
    match logoStep opts.logo with
    | Except.error e => ([bannerOp], Except.error e)
    | Except.ok lops =>
      let ops := bannerOp ::
        (lops ++ pagesFrom widthOf opts.partnerName opts.extractedDate 1 (opts.numPages - 1))
      (ops,
        Except.ok
          { output :=
              { numPages := opts.numPages
                ops := ops
                title := "Beweissicherungsbericht - " ++ opts.partnerName
                producer := opts.partnerName ++ " PDF Generator"
                creator := opts.partnerName }
            filename := mkFilename opts.partnerName today })

/-- Did the promise resolve (as opposed to reject)? -/
def resultOk : Except ProcError ProcessingResult → Bool
  | Except.ok _ => true
  | Except.error _ => false

/-! ## `drawSecureWhiteRectangle` (second revision of pdf-processor.ts,
lines 368-396)

`for (let i = 0; i < 3; i++) page.drawRectangle({x: x - i*0.5, y: y - i*0.5,
width: width + i, height: height + i, color: rgb(1,1,1), opacity: 1})`
followed by one final `drawRectangle` at the exact coordinates.  The result
is the list of rectangle fills appended to the page content stream. -/

def drawSecureWhiteRectangle (x y width height : ℚ) : List DrawOp :=
  ((List.range 3).map fun i =>
    DrawOp.rect ⟨x - (i : ℚ) * 0.5, y - (i : ℚ) * 0.5, width + (i : ℚ), height + (i : ℚ)⟩
      whiteColor 1) ++
  [DrawOp.rect ⟨x, y, width, height⟩ whiteColor 1]

/-- Layer extent comparison: the fill covers strictly more than a
`w × h` region in both directions. -/
def extentLarger (op : DrawOp) (w h : ℚ) : Bool :=
  match op with
  | DrawOp.rect r _ _ => decide (w < r.width) && decide (h < r.height)
  | _ => false

/-! ## `flattenRegions` (src/unnamed/part_002, lines 123-170)

The regions are grouped by page in a `Map` (JavaScript `Map` iteration
follows key-insertion order, and each page's list keeps the regions in push
order).  Each region is rendered with `renderRegionToImage` inside a
try/catch: a throw is logged and the region skipped.  Every successfully
rendered raster is then embedded and drawn over its region in the reloaded
document; nothing already present in the document is removed.

`render` abstracts `renderRegionToImage` (`none` = the promise rejected);
a returned `Nat` is an abstract handle for the produced PNG bytes. -/

structure FlattenRegion where
  pageIndex : Nat
  x : ℚ
  y : ℚ
  width : ℚ
  height : ℚ
deriving DecidableEq, Repr

def FlattenRegion.region (r : FlattenRegion) : Region := ⟨r.x, r.y, r.width, r.height⟩

/-- One step of building the page map: append to the existing page bucket or
add a new bucket at the end (JavaScript `Map.set` on a fresh key). -/
def insertGrouped : List (Nat × List FlattenRegion) → FlattenRegion →
    List (Nat × List FlattenRegion)
  | [], r => [(r.pageIndex, [r])]
  | (k, rs) :: rest, r =>
    if k = r.pageIndex then (k, rs ++ [r]) :: rest
    else (k, rs) :: insertGrouped rest r

/-- `regionsByPage` built by the first loop of `flattenRegions`. -/
def groupByPage (regions : List FlattenRegion) : List (Nat × List FlattenRegion) :=
  regions.foldl insertGrouped []

/-- Iterating `pageIndices` and then each page's regions, in order. -/
def joinGroups : List (Nat × List FlattenRegion) → List FlattenRegion
  | [] => []
  | g :: rest => g.2 ++ joinGroups rest

/-- The try/catch around `renderRegionToImage`: `none` (a rejected render
promise) is logged and skipped, success pairs the region with its raster. -/
def tryRender (render : Nat → Region → Option Nat) (r : FlattenRegion) :
    Option (FlattenRegion × Nat) :=
  (render r.pageIndex r.region).map fun img => (r, img)

/-- `flattenRegions`: render all regions (skipping failures), then draw each
produced raster over its region on top of the existing content `doc`. -/
def flattenRegions (doc : List (Nat × DrawOp)) (regions : List FlattenRegion)
    (render : Nat → Region → Option Nat) : List (Nat × DrawOp) :=
  let rendered := (joinGroups (groupByPage regions)).filterMap (tryRender render)
  doc ++ rendered.map fun p => (p.1.pageIndex, DrawOp.image (ImageRef.raster p.2) p.1.region)

/-! ## Helper lemmas -/

lemma getD_take_char : ∀ (n : Nat) (l : List Char) (i : Nat), i < n →
    (l.take n).getD i ' ' = l.getD i ' '
  | 0, _, _, h => absurd h (Nat.not_lt_zero _)
  | _ + 1, [], _, _ => by simp
  | _ + 1, _ :: _, 0, _ => rfl
  | n + 1, _ :: rest, i + 1, h => by
    simpa using getD_take_char n rest i (Nat.lt_of_succ_lt_succ h)

lemma dateAt_take (l : List Char) (h : dateAt l = true) :
    dateAt (l.take 10) = true ∧ (l.take 10).length = 10 := by
  have hlen : 10 ≤ l.length := by
    simp only [dateAt, Bool.and_eq_true, decide_eq_true_eq] at h
    exact h.1.1.1.1.1.1.1.1.1.1
  have htake : (l.take 10).length = 10 := by
    rw [List.length_take]
    omega
  refine ⟨?_, htake⟩
  simp only [dateAt, digitAtPos, dotAtPos, Bool.and_eq_true, decide_eq_true_eq] at h ⊢
  rw [htake]
  repeat rw [getD_take_char 10 l _ (by omega)]
  exact ⟨⟨⟨⟨⟨⟨⟨⟨⟨⟨by omega, h.1.1.1.1.1.1.1.1.1.2⟩, h.1.1.1.1.1.1.1.1.2⟩,
    h.1.1.1.1.1.1.1.2⟩, h.1.1.1.1.1.1.2⟩, h.1.1.1.1.1.2⟩, h.1.1.1.1.2⟩,
    h.1.1.1.2⟩, h.1.1.2⟩, h.1.2⟩, h.2⟩

lemma findDate_spec : ∀ (l m : List Char), findDate l = some m →
    dateAt m = true ∧ m.length = 10
  | [], _, h => by simp [findDate] at h
  | c :: rest, m, h => by
    rw [findDate] at h
    by_cases hd : dateAt (c :: rest) = true
    · rw [if_pos hd] at h
      obtain rfl : (c :: rest).take 10 = m := Option.some.inj h
      exact dateAt_take _ hd
    · rw [if_neg hd] at h
      exact findDate_spec rest m h

lemma findDateInItems_spec : ∀ (items : List String),
    findDateInItems items = "" ∨ isDateString (findDateInItems items) = true
  | [] => Or.inl rfl
  | item :: rest => by
    rw [findDateInItems]
    cases h : findDate item.data with
    | none => exact findDateInItems_spec rest
    | some m =>
      right
      obtain ⟨h1, h2⟩ := findDate_spec item.data m h
      simp [isDateString, h1, h2]

lemma findDateInItems_all_none : ∀ (items : List String),
    (items.all fun item => (findDate item.data).isNone) = true →
    findDateInItems items = ""
  | [], _ => rfl
  | item :: rest, h => by
    simp only [List.all_cons, Bool.and_eq_true] at h
    rw [findDateInItems]
    cases hf : findDate item.data with
    | none => exact findDateInItems_all_none rest h.2
    | some m => rw [hf] at h; simp at h

lemma mem_collapseWsAux : ∀ (l : List Char) (b : Bool) (c : Char),
    c ∈ collapseWsAux l b → c = '_' ∨ (c ∈ l ∧ isJsWhitespace c = false)
  | [], _, _, h => absurd h (List.not_mem_nil _)
  | d :: rest, b, c, h => by
    rw [collapseWsAux] at h
    by_cases hd : isJsWhitespace d = true
    · rw [if_pos hd] at h
      rcases List.mem_append.mp h with h1 | h1
      · left
        cases b with
        | true => simp at h1
        | false => simpa using h1
      · rcases mem_collapseWsAux rest true c h1 with h2 | ⟨h2, h3⟩
        · exact Or.inl h2
        · exact Or.inr ⟨List.mem_cons_of_mem _ h2, h3⟩
    · rw [if_neg hd] at h
      rcases List.mem_cons.mp h with rfl | h1
      · exact Or.inr ⟨List.mem_cons_self _ _, Bool.not_eq_true _ ▸ hd⟩
      · rcases mem_collapseWsAux rest false c h1 with h2 | ⟨h2, h3⟩
        · exact Or.inl h2
        · exact Or.inr ⟨List.mem_cons_of_mem _ h2, h3⟩

lemma sanitizeName_chars (s : String) :
    ((sanitizeName s).data.all fun c =>
      c == '_' || (isAllowedChar c && !(isJsWhitespace c))) = true := by
  apply List.all_eq_true.mpr
  intro c hc
  have hc' : c ∈ collapseWsAux (s.data.filter isAllowedChar) false := hc
  rcases mem_collapseWsAux _ _ _ hc' with h | ⟨hmem, hws⟩
  · simp [h]
  · have hall : isAllowedChar c = true := List.of_mem_filter hmem
    simp [hall, hws]

lemma digitChar_isDigit_of_lt (k : Nat) (h : k < 10) :
    (Nat.digitChar k).isDigit = true := by
  interval_cases k <;> rfl

lemma isoDate_shape (d : Date) : isoDateShape (isoDate d) = true := by
  have h10 : (10 : Nat) ≠ 0 := by omega
  have h1 := digitChar_isDigit_of_lt (d.year / 1000 % 10) (Nat.mod_lt _ (by omega))
  have h2 := digitChar_isDigit_of_lt (d.year / 100 % 10) (Nat.mod_lt _ (by omega))
  have h3 := digitChar_isDigit_of_lt (d.year / 10 % 10) (Nat.mod_lt _ (by omega))
  have h4 := digitChar_isDigit_of_lt (d.year % 10) (Nat.mod_lt _ (by omega))
  have h5 := digitChar_isDigit_of_lt (d.month / 10 % 10) (Nat.mod_lt _ (by omega))
  have h6 := digitChar_isDigit_of_lt (d.month % 10) (Nat.mod_lt _ (by omega))
  have h7 := digitChar_isDigit_of_lt (d.day / 10 % 10) (Nat.mod_lt _ (by omega))
  have h8 := digitChar_isDigit_of_lt (d.day % 10) (Nat.mod_lt _ (by omega))
  simp [isoDateShape, isoDate, fourDigits, twoDigits, h1, h2, h3, h4, h5, h6, h7, h8]

lemma footerPageOps_fst (widthOf : Font → String → ℚ → ℚ)
    (pn ed : String) (i : Nat) (p : Nat × DrawOp)
    (hp : p ∈ footerPageOps widthOf pn ed i) : p.1 = i := by
  rw [footerPageOps] at hp
  rcases List.mem_append.mp hp with h | h
  · rcases List.mem_cons.mp h with rfl | h
    · rfl
    rcases List.mem_cons.mp h with rfl | h
    · rfl
    rcases List.mem_cons.mp h with rfl | h
    · rfl
    · simp at h
  · by_cases he : ed ≠ ""
    · rw [if_pos he] at h
      rcases List.mem_cons.mp h with rfl | h
      · rfl
      · simp at h
    · rw [if_neg he] at h
      simp at h

lemma pagesFrom_bounds (widthOf : Font → String → ℚ → ℚ) (pn ed : String) :
    ∀ (k s : Nat) (p : Nat × DrawOp), p ∈ pagesFrom widthOf pn ed s k →
      s ≤ p.1 ∧ p.1 < s + k
  | 0, s, p, h => by simp [pagesFrom] at h
  | k + 1, s, p, h => by
    rw [pagesFrom] at h
    rcases List.mem_append.mp h with h1 | h1
    · have := footerPageOps_fst widthOf pn ed s p h1
      omega
    · have := pagesFrom_bounds widthOf pn ed k (s + 1) p h1
      omega

lemma filter_pagesFrom_out (widthOf : Font → String → ℚ → ℚ) (pn ed : String)
    (k s i : Nat) (h : i < s) :
    (pagesFrom widthOf pn ed s k).filter (fun p => p.1 == i) = [] := by
  apply List.filter_eq_nil_iff.mpr
  intro p hp
  have := pagesFrom_bounds widthOf pn ed k s p hp
  simp only [beq_iff_eq]
  omega

lemma filter_footerPageOps_self (widthOf : Font → String → ℚ → ℚ)
    (pn ed : String) (i : Nat) :
    (footerPageOps widthOf pn ed i).filter (fun p => p.1 == i) =
      footerPageOps widthOf pn ed i := by
  apply List.filter_eq_self.mpr
  intro p hp
  simp [footerPageOps_fst widthOf pn ed i p hp]

lemma filter_pagesFrom (widthOf : Font → String → ℚ → ℚ) (pn ed : String) :
    ∀ (k s i : Nat), s ≤ i → i < s + k →
      (pagesFrom widthOf pn ed s k).filter (fun p => p.1 == i) =
        footerPageOps widthOf pn ed i
  | 0, s, i, h1, h2 => by omega
  | k + 1, s, i, h1, h2 => by
    rw [pagesFrom, List.filter_append]
    rcases Nat.eq_or_lt_of_le h1 with rfl | hlt
    · rw [filter_footerPageOps_self,
        filter_pagesFrom_out widthOf pn ed k (s + 1) s (by omega),
        List.append_nil]
    · have hne : (footerPageOps widthOf pn ed s).filter (fun p => p.1 == i) = [] := by
        apply List.filter_eq_nil_iff.mpr
        intro p hp
        have := footerPageOps_fst widthOf pn ed s p hp
        simp only [beq_iff_eq]
        omega
      rw [hne, List.nil_append]
      exact filter_pagesFrom widthOf pn ed k (s + 1) i (by omega) (by omega)

lemma logoStep_shape (lo : Option LogoInput) (l : List (Nat × DrawOp))
    (h : logoStep lo = Except.ok l) :
    (l.all fun p => p.1 == 0 && !(p.2.isText)) = true := by
  cases lo with
  | none =>
    obtain rfl : ([] : List (Nat × DrawOp)) = l := Except.ok.inj h
    rfl
  | some lg =>
    rw [logoStep] at h
    by_cases hm : lg.mime = ""
    · rw [if_pos hm] at h
      obtain rfl : ([] : List (Nat × DrawOp)) = l := Except.ok.inj h
      rfl
    · rw [if_neg hm] at h
      cases he : embedLogoInner lg with
      | ok wh =>
        rw [he] at h
        obtain rfl := Except.ok.inj h
        rfl
      | error e => rw [he] at h; simp at h

lemma joinGroups_insertGrouped : ∀ (m : List (Nat × List FlattenRegion))
    (r : FlattenRegion),
    List.Perm (joinGroups (insertGrouped m r)) (joinGroups m ++ [r])
  | [], r => by simp [insertGrouped, joinGroups]
  | (k, rs) :: rest, r => by
    rw [insertGrouped]
    by_cases hk : k = r.pageIndex
    · rw [if_pos hk]
      show List.Perm ((rs ++ [r]) ++ joinGroups rest) ((rs ++ joinGroups rest) ++ [r])
      have h1 : (rs ++ [r]) ++ joinGroups rest = rs ++ ([r] ++ joinGroups rest) :=
        List.append_assoc rs [r] (joinGroups rest)
      have h2 : (rs ++ joinGroups rest) ++ [r] = rs ++ (joinGroups rest ++ [r]) :=
        List.append_assoc rs (joinGroups rest) [r]
      rw [h1, h2]
      exact List.Perm.append_left rs List.perm_append_comm
    · rw [if_neg hk]
      show List.Perm (rs ++ joinGroups (insertGrouped rest r))
        ((rs ++ joinGroups rest) ++ [r])
      have h2 : (rs ++ joinGroups rest) ++ [r] = rs ++ (joinGroups rest ++ [r]) :=
        List.append_assoc rs (joinGroups rest) [r]
      rw [h2]
      exact List.Perm.append_left rs (joinGroups_insertGrouped rest r)

lemma joinGroups_foldl : ∀ (l : List FlattenRegion)
    (m : List (Nat × List FlattenRegion)),
    List.Perm (joinGroups (l.foldl insertGrouped m)) (joinGroups m ++ l)
  | [], m => by simp
  | r :: l, m => by
    rw [List.foldl_cons]
    have step1 := joinGroups_foldl l (insertGrouped m r)
    have step2 : List.Perm (joinGroups (insertGrouped m r) ++ l)
        ((joinGroups m ++ [r]) ++ l) :=
      List.Perm.append_right l (joinGroups_insertGrouped m r)
    have step3 : (joinGroups m ++ [r]) ++ l = joinGroups m ++ (r :: l) := by simp
    exact (step1.trans step2).trans (step3 ▸ List.Perm.refl _)

lemma joinGroups_groupByPage (regions : List FlattenRegion) :
    List.Perm (joinGroups (groupByPage regions)) regions := by
  have h := joinGroups_foldl regions []
  simpa [joinGroups] using h

lemma length_filterMap_isSome {α β : Type} (f : α → Option β) :
    ∀ l : List α, (l.filterMap f).length = (l.filter fun a => (f a).isSome).length
  | [] => rfl
  | a :: l => by
    cases h : f a with
    | none => simp [List.filterMap_cons, List.filter_cons, h, length_filterMap_isSome f l]
    | some b => simp [List.filterMap_cons, List.filter_cons, h, length_filterMap_isSome f l]

/-! ## Concrete inputs used by the witnesses -/

/-- A concrete font metric: text width proportional to length and size. -/
def w0 : Font → String → ℚ → ℚ := fun _ s size => (s.length : ℚ) * size

def day0 : Date := ⟨2026, 10, 11⟩

def optsC1 : ProcessingOptions := ⟨0, "Partner AG", none, ""⟩

/-- A logo declared as `image/gif` (unsupported mime type). -/
def optsC2gif : ProcessingOptions := ⟨1, "Partner AG", some ⟨"image/gif", none, none⟩, ""⟩

/-- A logo declared as `image/png` whose bytes pdf-lib cannot embed. -/
def optsC2png : ProcessingOptions :=
  ⟨2, "Partner AG", some ⟨"image/png", none, some (100, 50)⟩, "05.03.2024"⟩

def onePageDoc : TextDoc := ⟨[["Seite 1, 05.03.2024"]]⟩

def noDateDoc : TextDoc := ⟨[["Deckblatt"], ["Bericht 123", "Acme AG"]]⟩

def acmeDoc : TextDoc := ⟨[["Deckblatt"], ["Objekt Nr. A", "Acme AG, 05.03.2024"]]⟩

/-! ## Claim theorems -/

/-- C1: for every input document whose page list is empty, `processPDF`
fails with the structural error (`Das PDF enthält keine Seiten.`) before any
drawing operation is performed (the trace is empty), and no output bytes are
produced (the result is the error, not a `ProcessingResult`). -/
theorem processPDF_zeroPages_aborts (opts : ProcessingOptions)
    (widthOf : Font → String → ℚ → ℚ) (today : Date) (h : opts.numPages = 0) :
    processPDF opts widthOf today = ([], Except.error ProcError.noPages) := by
  rw [processPDF, if_pos h]

theorem processPDF_zeroPages_aborts_witness :
    optsC1.numPages = 0 ∧
    processPDF optsC1 w0 day0 = ([], Except.error ProcError.noPages) :=
  ⟨rfl, processPDF_zeroPages_aborts optsC1 w0 day0 rfl⟩

/-- C2 counterexample: with a logo declared as the unsupported mime type
`image/gif`, `processPDF` rejects with the user-facing `logoProcessing`
error (`Das Logo konnte nicht verarbeitet werden...`), not with the
unsupported-image-format error: the `Nicht unterstütztes Bildformat` throw
sits inside the `try` block and is swallowed by its own `catch`. -/
theorem processPDF_unsupportedMime_cex :
    (processPDF optsC2gif w0 day0).2 = Except.error ProcError.logoProcessing ∧
    ProcError.message ProcError.logoProcessing ≠
      ProcError.message (ProcError.unsupportedFormat "image/gif") := by
  exact ⟨rfl, by decide⟩

/-- C2 (amended): for every logo input, both an unsupported declared mime
type and logo bytes that cannot be embedded make `processPDF` abort with the
user-facing `logoProcessing` error ("could not process logo") — the
internal unsupported-format error is caught and replaced — and no output is
produced in either case. -/
theorem processPDF_logoFailure_aborts (opts : ProcessingOptions)
    (widthOf : Font → String → ℚ → ℚ) (today : Date) (lg : LogoInput)
    (hnp : opts.numPages ≠ 0) (hlg : opts.logo = some lg) (hm : lg.mime ≠ "")
    (hbad : (lg.mime ≠ "image/png" ∧ lg.mime ≠ "image/jpeg" ∧ lg.mime ≠ "image/jpg") ∨
            (lg.mime = "image/png" ∧ lg.asPng = none) ∨
            ((lg.mime = "image/jpeg" ∨ lg.mime = "image/jpg") ∧ lg.asJpg = none)) :
    (processPDF opts widthOf today).2 = Except.error ProcError.logoProcessing := by
  have hstep : logoStep (some lg) = Except.error ProcError.logoProcessing := by
    rw [logoStep, if_neg hm]
    rcases hbad with ⟨hp1, hp2, hp3⟩ | ⟨hp1, hp2⟩ | ⟨hp1, hp2⟩
    · have he : embedLogoInner lg = Except.error (ProcError.unsupportedFormat lg.mime) := by
        rw [embedLogoInner, if_neg hp1, if_neg (by rintro (hx | hx) <;> contradiction)]
      rw [he]
    · have he : embedLogoInner lg = Except.error ProcError.embedFailure := by
        rw [embedLogoInner, if_pos hp1, hp2]
      rw [he]
    · have he : embedLogoInner lg = Except.error ProcError.embedFailure := by
        have hne : ¬ lg.mime = "image/png" := by
          rcases hp1 with hx | hx <;> simp [hx]
        rw [embedLogoInner, if_neg hne, if_pos hp1, hp2]
      rw [he]
  rw [processPDF, if_neg hnp, hlg, hstep]

theorem processPDF_logoFailure_aborts_witness :
    (processPDF optsC2png w0 day0).2 = Except.error ProcError.logoProcessing :=
  processPDF_logoFailure_aborts optsC2png w0 day0 ⟨"image/png", none, some (100, 50)⟩
    (by decide) rfl (by decide) (Or.inr (Or.inl ⟨rfl, rfl⟩))

/-- C3: for all positive original and box dimensions, `scaleToFit` returns
`originalWidth * scale` and `originalHeight * scale` for
`scale = min(maxWidth/originalWidth, maxHeight/originalHeight)`; the result
fits in the box, preserves the aspect ratio exactly (the JavaScript numbers
are modelled as exact rationals, so "within floating-point tolerance" is
exact equality here), and is tight in at least one dimension. -/
theorem scaleToFit_spec (ow oh mw mh : ℚ) (h1 : 0 < ow) (h2 : 0 < oh)
    (h3 : 0 < mw) (h4 : 0 < mh) :
    (scaleToFit ow oh mw mh).1 = ow * min (mw / ow) (mh / oh) ∧
    (scaleToFit ow oh mw mh).2 = oh * min (mw / ow) (mh / oh) ∧
    (scaleToFit ow oh mw mh).1 ≤ mw ∧
    (scaleToFit ow oh mw mh).2 ≤ mh ∧
    (scaleToFit ow oh mw mh).1 / (scaleToFit ow oh mw mh).2 = ow / oh ∧
    ((scaleToFit ow oh mw mh).1 = mw ∨ (scaleToFit ow oh mw mh).2 = mh) := by
  have hs : 0 < min (mw / ow) (mh / oh) := lt_min (div_pos h3 h1) (div_pos h4 h2)
  have e1 : (scaleToFit ow oh mw mh).1 = ow * min (mw / ow) (mh / oh) := rfl
  have e2 : (scaleToFit ow oh mw mh).2 = oh * min (mw / ow) (mh / oh) := rfl
  refine ⟨e1, e2, ?_, ?_, ?_, ?_⟩
  · rw [e1]
    calc ow * min (mw / ow) (mh / oh) ≤ ow * (mw / ow) :=
          mul_le_mul_of_nonneg_left (min_le_left _ _) h1.le
      _ = mw := by field_simp
  · rw [e2]
    calc oh * min (mw / ow) (mh / oh) ≤ oh * (mh / oh) :=
          mul_le_mul_of_nonneg_left (min_le_right _ _) h2.le
      _ = mh := by field_simp
  · rw [e1, e2]
    rw [mul_comm ow _, mul_comm oh _, mul_div_mul_left _ _ hs.ne']
  · rcases min_choice (mw / ow) (mh / oh) with h | h
    · left
      rw [e1, h]
      field_simp
    · right
      rw [e2, h]
      field_simp

theorem scaleToFit_spec_witness :
    (scaleToFit 2 1 4 3).1 = 2 * min (4 / 2 : ℚ) (3 / 1) ∧
    (scaleToFit 2 1 4 3).2 = 1 * min (4 / 2 : ℚ) (3 / 1) ∧
    (scaleToFit 2 1 4 3).1 ≤ 4 ∧
    (scaleToFit 2 1 4 3).2 ≤ 3 ∧
    (scaleToFit 2 1 4 3).1 / (scaleToFit 2 1 4 3).2 = 2 / 1 ∧
    ((scaleToFit 2 1 4 3).1 = 4 ∨ (scaleToFit 2 1 4 3).2 = 3) :=
  scaleToFit_spec 2 1 4 3 (by norm_num) (by norm_num) (by norm_num) (by norm_num)

/-- C4: `extractDateFromPdf` is a total function (the model of its
try/catch), and every failure path yields the empty string: a load/decode
error (`none`), a document with fewer than 2 pages, and a page-2 text with
no `DD.MM.YYYY` match. -/
theorem extractDateFromPdf_neverThrows :
    extractDateFromPdf none = "" ∧
    (∀ d : TextDoc, d.pages.length < 2 → extractDateFromPdf (some d) = "") ∧
    (∀ d : TextDoc,
      ((d.pages.getD 1 []).all fun item => (findDate item.data).isNone) = true →
      extractDateFromPdf (some d) = "") := by
  refine ⟨rfl, ?_, ?_⟩
  · intro d h
    simp [extractDateFromPdf, h]
  · intro d h
    rw [extractDateFromPdf]
    by_cases hl : d.pages.length < 2
    · rw [if_pos hl]
    · rw [if_neg hl]
      exact findDateInItems_all_none _ h

theorem extractDateFromPdf_neverThrows_witness :
    extractDateFromPdf (some onePageDoc) = "" ∧
    extractDateFromPdf (some noDateDoc) = "" :=
  ⟨extractDateFromPdf_neverThrows.2.1 onePageDoc (by decide),
   extractDateFromPdf_neverThrows.2.2 noDateDoc (by decide)⟩

/-- C5: every result of `extractDateFromPdf` is either empty or a string of
the exact `DD.MM.YYYY` shape (a 10-character window matching
`\d{2}\.\d{2}\.\d{4}`), and on a document whose expected page carries
`Acme AG, 05.03.2024` with no earlier date it returns `05.03.2024`. -/
theorem extractDateFromPdf_pattern :
    (∀ doc : Option TextDoc,
      extractDateFromPdf doc = "" ∨ isDateString (extractDateFromPdf doc) = true) ∧
    extractDateFromPdf (some acmeDoc) = "05.03.2024" := by
  constructor
  · intro doc
    cases doc with
    | none => exact Or.inl rfl
    | some d =>
      rw [extractDateFromPdf]
      by_cases hl : d.pages.length < 2
      · rw [if_pos hl]
        exact Or.inl rfl
      · rw [if_neg hl]
        exact findDateInItems_spec _
  · decide

/-- C6: every successful `processPDF` run names its output
`Beweissicherungsbericht_<sanitized>_<YYYY-MM-DD>.pdf`, where the sanitized
segment is obtained by first deleting every character outside
`[a-zA-Z0-9äöüÄÖÜß\s-]` and then replacing each maximal whitespace run by a
single underscore (so every character of the segment is either an allowed
non-whitespace character or an underscore — disallowed characters are
dropped, never escaped), and the date segment has the `YYYY-MM-DD` shape. -/
theorem processPDF_filename_spec (opts : ProcessingOptions)
    (widthOf : Font → String → ℚ → ℚ) (today : Date) (res : ProcessingResult)
    (hres : (processPDF opts widthOf today).2 = Except.ok res)
    (hy : today.year ≤ 9999) :
    res.filename =
      "Beweissicherungsbericht_" ++ sanitizeName opts.partnerName ++ "_" ++
        isoDate today ++ ".pdf" ∧
    ((sanitizeName opts.partnerName).data.all fun c =>
      c == '_' || (isAllowedChar c && !(isJsWhitespace c))) = true ∧
    isoDateShape (isoDate today) = true := by
  refine ⟨?_, sanitizeName_chars opts.partnerName, isoDate_shape today⟩
  rw [processPDF] at hres
  by_cases h0 : opts.numPages = 0
  · rw [if_pos h0] at hres
    simp at hres
  · rw [if_neg h0] at hres
    cases hl : logoStep opts.logo with
    | error e =>
      rw [hl] at hres
      simp at hres
    | ok lops =>
      rw [hl] at hres
      have h2 := Except.ok.inj hres
      rw [← h2]
      rfl

theorem processPDF_filename_spec_witness :
    ({ output :=
         { numPages := 2
           ops := bannerOp :: ([] ++ pagesFrom w0 "Acme & Söhne" "05.03.2024" 1 1)
           title := "Beweissicherungsbericht - " ++ "Acme & Söhne"
           producer := "Acme & Söhne" ++ " PDF Generator"
           creator := "Acme & Söhne" }
       filename := mkFilename "Acme & Söhne" day0 } : ProcessingResult).filename =
      "Beweissicherungsbericht_" ++ sanitizeName "Acme & Söhne" ++ "_" ++
        isoDate day0 ++ ".pdf" ∧
    ((sanitizeName "Acme & Söhne").data.all fun c =>
      c == '_' || (isAllowedChar c && !(isJsWhitespace c))) = true ∧
    isoDateShape (isoDate day0) = true :=
  processPDF_filename_spec ⟨2, "Acme & Söhne", none, "05.03.2024"⟩ w0 day0 _ rfl
    (by decide)

/-- C7: in every successful run, the drawing calls on each non-title page
`i` (1 ≤ i < numPages) are exactly: the white header cover, the white
footer-area cover (the footer mask), the partner name drawn bold at the
fixed baseline `(42, 46.25)` size 8, and — exactly when a date was
extracted — `", " + date` in regular weight at the same baseline shifted
right by the measured bold width of the partner name; no placeholder is
drawn when the date is empty. -/
theorem processPDF_footerPages (opts : ProcessingOptions)
    (widthOf : Font → String → ℚ → ℚ) (today : Date) (i : Nat)
    (h1 : 1 ≤ i) (h2 : i < opts.numPages)
    (hok : resultOk (processPDF opts widthOf today).2 = true) :
    ((processPDF opts widthOf today).1.filter fun p => p.1 == i) =
      [(i, DrawOp.image ImageRef.whiteHeader headerLogoArea),
       (i, DrawOp.image ImageRef.whiteFooter footerArea),
       (i, DrawOp.text opts.partnerName 42 46.25 8 Font.helveticaBold)] ++
      (if opts.extractedDate ≠ "" then
        [(i, DrawOp.text (", " ++ opts.extractedDate)
            (42 + widthOf Font.helveticaBold opts.partnerName 8) 46.25 8 Font.helvetica)]
       else []) := by
  have h0 : ¬ opts.numPages = 0 := by omega
  rw [processPDF, if_neg h0] at hok ⊢
  cases hl : logoStep opts.logo with
  | error e =>
    rw [hl] at hok
    simp [resultOk] at hok
  | ok lops =>
    show ((bannerOp ::
      (lops ++ pagesFrom widthOf opts.partnerName opts.extractedDate 1
        (opts.numPages - 1))).filter fun p => p.1 == i) = _
    have hb : ¬ ((fun p : Nat × DrawOp => p.1 == i) bannerOp) = true := by
      simp only [bannerOp, beq_iff_eq]
      omega
    rw [List.filter_cons, if_neg hb, List.filter_append]
    have hlop : lops.filter (fun p => p.1 == i) = [] := by
      apply List.filter_eq_nil_iff.mpr
      intro p hp
      have hall := logoStep_shape opts.logo lops hl
      have hone := List.all_eq_true.mp hall p hp
      simp only [Bool.and_eq_true, beq_iff_eq] at hone
      simp only [beq_iff_eq]
      omega
    rw [hlop, List.nil_append,
      filter_pagesFrom widthOf opts.partnerName opts.extractedDate _ 1 i h1 (by omega)]
    rfl

theorem processPDF_footerPages_witness :
    ((processPDF ⟨3, "AB", none, "01.02.2003"⟩ w0 day0).1.filter
        fun p => p.1 == 1) =
      [(1, DrawOp.image ImageRef.whiteHeader headerLogoArea),
       (1, DrawOp.image ImageRef.whiteFooter footerArea),
       (1, DrawOp.text "AB" 42 46.25 8 Font.helveticaBold)] ++
      (if ("01.02.2003" : String) ≠ "" then
        [(1, DrawOp.text (", " ++ "01.02.2003")
            (42 + w0 Font.helveticaBold "AB" 8) 46.25 8 Font.helvetica)]
       else []) :=
  processPDF_footerPages ⟨3, "AB", none, "01.02.2003"⟩ w0 day0 1
    (by decide) (by decide) rfl

/-- C8 counterexample: at region `(0, 0, 10, 10)` the very first pre-final
fill emitted by `drawSecureWhiteRectangle` (loop iteration `i = 0`) covers
exactly the target region, so it is not the case that each pre-final layer
is strictly larger than the exact region. -/
theorem drawSecureWhiteRectangle_firstLayer_cex :
    (drawSecureWhiteRectangle 0 0 10 10).getD 0 (DrawOp.annot ⟨0, 0, 0, 0⟩) =
      DrawOp.rect ⟨0, 0, 10, 10⟩ whiteColor 1 ∧
    ((drawSecureWhiteRectangle 0 0 10 10).dropLast.all
      fun op => extentLarger op 10 10) = false := by
  constructor
  · norm_num [drawSecureWhiteRectangle, List.range_succ]
  · norm_num [drawSecureWhiteRectangle, List.range_succ, extentLarger]

/-- C8 (amended): `drawSecureWhiteRectangle` emits exactly four opaque white
fills through the document's native vector rectangle primitive (never an
annotation): three loop layers of increasing extent — the first coinciding
with the exact region, the second and third strictly larger — followed by a
final exact-size fill. -/
theorem drawSecureWhiteRectangle_layers (x y w h : ℚ) :
    drawSecureWhiteRectangle x y w h =
      [DrawOp.rect ⟨x, y, w, h⟩ whiteColor 1,
       DrawOp.rect ⟨x - 1/2, y - 1/2, w + 1, h + 1⟩ whiteColor 1,
       DrawOp.rect ⟨x - 1, y - 1, w + 2, h + 2⟩ whiteColor 1,
       DrawOp.rect ⟨x, y, w, h⟩ whiteColor 1] ∧
    ((drawSecureWhiteRectangle x y w h).all DrawOp.isOpaqueWhiteRect) = true ∧
    ((drawSecureWhiteRectangle x y w h).all fun op => !(op.isAnnot)) = true ∧
    extentLarger (DrawOp.rect ⟨x - 1/2, y - 1/2, w + 1, h + 1⟩ whiteColor 1) w h = true ∧
    extentLarger (DrawOp.rect ⟨x - 1, y - 1, w + 2, h + 2⟩ whiteColor 1) w h = true := by
  have hlist : drawSecureWhiteRectangle x y w h =
      [DrawOp.rect ⟨x, y, w, h⟩ whiteColor 1,
       DrawOp.rect ⟨x - 1/2, y - 1/2, w + 1, h + 1⟩ whiteColor 1,
       DrawOp.rect ⟨x - 1, y - 1, w + 2, h + 2⟩ whiteColor 1,
       DrawOp.rect ⟨x, y, w, h⟩ whiteColor 1] := by
    norm_num [drawSecureWhiteRectangle, List.range_succ]
  refine ⟨hlist, ?_, ?_, ?_, ?_⟩
  · rw [hlist]
    simp [DrawOp.isOpaqueWhiteRect, whiteColor]
  · rw [hlist]
    simp [DrawOp.isAnnot]
  · simp only [extentLarger, Bool.and_eq_true, decide_eq_true_eq]
    constructor <;> norm_num
  · simp only [extentLarger, Bool.and_eq_true, decide_eq_true_eq]
    constructor <;> norm_num

/-- C9: a rendering failure for a single region does not abort
`flattenRegions`: the whole prior page content — including the vector fill
drawn over the skipped region — survives unchanged as a prefix of the
output, exactly one raster is appended per successfully rendered region
(failed regions contribute nothing), and every successfully rendered region
is re-embedded over its own rectangle. -/
theorem flattenRegions_skipsFailures (doc : List (Nat × DrawOp))
    (regions : List FlattenRegion) (render : Nat → Region → Option Nat)
    (bad : FlattenRegion) (hbad : bad ∈ regions)
    (hfail : render bad.pageIndex bad.region = none) :
    (flattenRegions doc regions render).take doc.length = doc ∧
    (flattenRegions doc regions render).length =
      doc.length + (regions.filter fun r => (render r.pageIndex r.region).isSome).length ∧
    ∀ r ∈ regions, ∀ img, render r.pageIndex r.region = some img →
      (r.pageIndex, DrawOp.image (ImageRef.raster img) r.region) ∈
        flattenRegions doc regions render := by
  have hperm := joinGroups_groupByPage regions
  refine ⟨?_, ?_, ?_⟩
  · rw [flattenRegions]
    exact List.take_left doc _
  · rw [flattenRegions]
    show (doc ++ _).length = _
    rw [List.length_append, List.length_map]
    congr 1
    rw [length_filterMap_isSome]
    have hp2 : List.Perm
        ((joinGroups (groupByPage regions)).filter fun r => (tryRender render r).isSome)
        (regions.filter fun r => (tryRender render r).isSome) := hperm.filter _
    rw [hp2.length_eq]
    congr 1
    apply List.filter_congr
    intro r _
    simp [tryRender]
  · intro r hr img himg
    rw [flattenRegions]
    apply List.mem_append_right
    apply List.mem_map.mpr
    refine ⟨(r, img), ?_, rfl⟩
    apply List.mem_filterMap.mpr
    refine ⟨r, hperm.mem_iff.mpr hr, ?_⟩
    simp [tryRender, himg]

def docC9 : List (Nat × DrawOp) := [(1, DrawOp.rect ⟨42, 42.25, 130, 10⟩ whiteColor 1)]

/-- A region whose render fails under `renderC9`. -/
def regA : FlattenRegion := ⟨0, 496, 0, 99, 842⟩

/-- A region whose render succeeds under `renderC9`. -/
def regB : FlattenRegion := ⟨1, 527, 782, 68, 60⟩

def renderC9 : Nat → Region → Option Nat := fun p _ => if p = 1 then some 7 else none

theorem flattenRegions_skipsFailures_witness :
    (flattenRegions docC9 [regA, regB] renderC9).take docC9.length = docC9 ∧
    (1, DrawOp.image (ImageRef.raster 7) regB.region) ∈
      flattenRegions docC9 [regA, regB] renderC9 := by
  have H := flattenRegions_skipsFailures docC9 [regA, regB] renderC9 regA
    (List.mem_cons_self _ _) rfl
  exact ⟨H.1, H.2.2 regB (by simp) 7 rfl⟩

/-- C10: a one-page document passes the structural check, the page-2+ loop
runs zero times, and `processPDF` succeeds with exactly the page-1
operations (banner cover plus whatever the logo step drew), the rebranded
metadata, and the generated filename — and no text is ever drawn. -/
theorem processPDF_singlePage (opts : ProcessingOptions)
    (widthOf : Font → String → ℚ → ℚ) (today : Date) (lops : List (Nat × DrawOp))
    (h1 : opts.numPages = 1) (hl : logoStep opts.logo = Except.ok lops) :
    processPDF opts widthOf today =
      (bannerOp :: lops,
       Except.ok
         { output :=
             { numPages := 1
               ops := bannerOp :: lops
               title := "Beweissicherungsbericht - " ++ opts.partnerName
               producer := opts.partnerName ++ " PDF Generator"
               creator := opts.partnerName }
           filename := mkFilename opts.partnerName today }) ∧
    ((bannerOp :: lops).all fun p => p.1 == 0) = true ∧
    ((bannerOp :: lops).all fun p => !(p.2.isText)) = true := by
  have h0 : ¬ opts.numPages = 0 := by omega
  have hall := logoStep_shape opts.logo lops hl
  refine ⟨?_, ?_, ?_⟩
  · rw [processPDF, if_neg h0, hl]
    simp [h1, pagesFrom]
  · apply List.all_eq_true.mpr
    intro p hp
    rcases List.mem_cons.mp hp with rfl | hp2
    · rfl
    · have hone := List.all_eq_true.mp hall p hp2
      simp only [Bool.and_eq_true] at hone
      exact hone.1
  · apply List.all_eq_true.mpr
    intro p hp
    rcases List.mem_cons.mp hp with rfl | hp2
    · rfl
    · have hone := List.all_eq_true.mp hall p hp2
      simp only [Bool.and_eq_true] at hone
      exact hone.2

def optsC10 : ProcessingOptions := ⟨1, "Partner", none, "05.03.2024"⟩

theorem processPDF_singlePage_witness :
    processPDF optsC10 w0 day0 =
      (bannerOp :: [],
       Except.ok
         { output :=
             { numPages := 1
               ops := bannerOp :: []
               title := "Beweissicherungsbericht - " ++ "Partner"
               producer := "Partner" ++ " PDF Generator"
               creator := "Partner" }
           filename := mkFilename "Partner" day0 }) ∧
    ((bannerOp :: []).all fun p => p.1 == 0) = true ∧
    ((bannerOp :: ([] : List (Nat × DrawOp))).all fun p => !(p.2.isText)) = true :=
  processPDF_singlePage optsC10 w0 day0 [] rfl rfl
